import Mathlib

/-!
Helm chart pipeline (`conference-application/helm-chart-pipeline.go`)

A shallow embedding of the command dispatcher `main` and of the stage functions
`helmPackage`, `helmTest`, `helmPublish`, `updateYAML`, `getDaggerClient` and
`isAnyEmpty`.

Everything the program does to the outside (connecting to the container backend,
forcing a container pipeline, printing) is recorded as an `Event`.  A function of the
program is a value of `M α`: given the events that happened before it was entered, it
yields how control leaves it (`Result`) and the events it added.  The answers of the
outside (`World`) may depend on everything that happened before.
-/

namespace HelmChartPipeline

/-! ## Go values -/

/-- Error and panic values the program can hold. `errorf` is a value built by the
program itself with `fmt.Errorf`, `backend` a value handed back by the dagger SDK
(connection, tool or registry failure), `indexOutOfRange` the run-time error raised by
an index expression `xs[i]` with `i ≥ len(xs)`. -/
inductive GoError where
  | errorf (msg : String)
  | backend (msg : String)
  | indexOutOfRange (i len : Nat)
  deriving DecidableEq, Repr

/-- The text of an error, `err.Error()`. -/
def GoError.Error : GoError → String
  | .errorf msg => msg
  | .backend msg => msg
  | .indexOutOfRange i len =>
    "runtime error: index out of range [" ++ toString i ++ "] with length " ++ toString len

/-- How control leaves a Go function: a normal return, a panic that unwinds the stack,
or the end of the process by `os.Exit`. -/
inductive Result (α : Type) where
  | ok (a : α)
  | panic (v : GoError)
  | exited (code : Nat)
  deriving DecidableEq, Repr

/-! ## Container pipelines (dagger) -/

/-- One `WithExec` step: the argument list and the standard input
(`dagger.ContainerWithExecOpts{Stdin: ...}`, empty when no option is given). -/
structure Exec where
  args : List String
  stdin : String
  deriving DecidableEq, Repr

/-- A lazily built container pipeline: `Container().From(image)` followed by
`WithUser`, `WithMountedDirectory`, `WithFile` and `WithExec` steps. Host directories
and files are named by their host path. -/
structure Container where
  image : String
  user : String
  mountedDirs : List (String × String)
  files : List (String × String × String)
  execs : List Exec
  deriving DecidableEq, Repr

/-- The call `c.Container().From(image)`. -/
def Container.From (image : String) : Container :=
  { image := image, user := "", mountedDirs := [], files := [], execs := [] }

/-- The call `WithUser(name)`. -/
def Container.WithUser (ctr : Container) (name : String) : Container :=
  { ctr with user := name }

/-- The call `WithMountedDirectory(path, c.Host().Directory(hostDir))`. -/
def Container.WithMountedDirectory (ctr : Container) (path hostDir : String) : Container :=
  { ctr with mountedDirs := ctr.mountedDirs ++ [(path, hostDir)] }

/-- The call `WithFile(path, c.Host().Directory(hostDir).File(name))`. -/
def Container.WithFile (ctr : Container) (path hostDir name : String) : Container :=
  { ctr with files := ctr.files ++ [(path, hostDir, name)] }

/-- The call `WithExec(args, opts)`; `stdin` is `opts.Stdin`. -/
def Container.WithExec (ctr : Container) (args : List String) (stdin : String) : Container :=
  { ctr with execs := ctr.execs ++ [{ args := args, stdin := stdin }] }

/-! ## Events, the outside world, and the execution monad -/

/-- The functions of the program whose entry is recorded. -/
inductive Fn where
  | helmPackage
  | helmTest
  | helmPublish
  | updateYAML
  | getDaggerClient
  deriving DecidableEq, Repr

/-- What a run does that can be observed from outside. `call` marks the entry of a
function of the program; `acquire` a successful `dagger.Connect`, `connectFailed` a
failed one, `release` a `Close` of a client; `stdout` and `exportFile` force a container
pipeline (this is when its commands run); `println` and `fatalln` are output. -/
inductive Event where
  | call (fn : Fn) (args : List String)
  | acquire (client : Nat)
  | connectFailed
  | release (client : Nat)
  | stdout (client : Nat) (ctr : Container)
  | exportFile (client : Nat) (ctr : Container) (file : String) (path : String)
  | println (operands : List String)
  | fatalln (operands : List String)
  deriving DecidableEq, Repr

/-- The answers of the container backend. Each answer may depend on all events that
happened before the request. An error is given by its text. -/
structure World where
  connect : List Event → Option String
  stdout : List Event → Nat → Container → String × Option String
  exportFile : List Event → Nat → Container → String → String → Bool × Option String

/-- A computation of the program: from the events so far to the way control leaves and
the events added. -/
def M (α : Type) : Type := List Event → Result α × List Event

/-- Normal completion with a value and no event. -/
def M.pure {α : Type} (a : α) : M α := fun _ => (.ok a, [])

/-- Sequencing: the second computation runs only after a normal completion of the first
and sees the events of the first. -/
def M.bind {α β : Type} (m : M α) (f : α → M β) : M β := fun h =>
  match m h with
  | (.ok a, e1) => ((f a (h ++ e1)).1, e1 ++ (f a (h ++ e1)).2)
  | (.panic v, e1) => (.panic v, e1)
  | (.exited n, e1) => (.exited n, e1)

instance : Monad M where
  pure := M.pure
  bind := M.bind

/-- Record one event. -/
def emit (e : Event) : M Unit := fun _ => (.ok (), [e])

/-- The statement `panic(v)`, and a run-time panic. -/
def goPanic {α : Type} (v : GoError) : M α := fun _ => (.panic v, [])

/-- The call `os.Exit(code)`. -/
def osExit {α : Type} (code : Nat) : M α := fun _ => (.exited code, [])

/-- The statement `defer cleanup` followed by `body`: the cleanup runs when the body
returns and when it panics, not when the process exits. The result of the cleanup is
dropped (the program only defers `c.Close()` and ignores its result). -/
def deferring {α : Type} (cleanup : M Unit) (body : M α) : M α := fun h =>
  match body h with
  | (.exited n, e1) => (.exited n, e1)
  | (.ok a, e1) => (.ok a, e1 ++ (cleanup (h ++ e1)).2)
  | (.panic v, e1) => (.panic v, e1 ++ (cleanup (h ++ e1)).2)

/-- An index expression `xs[i]` on a slice of strings. -/
def index (xs : List String) (i : Nat) : M String :=
  match xs[i]? with
  | some x => pure x
  | none => goPanic (.indexOutOfRange i xs.length)

/-- The exit status of the process for the way control leaves `main`: 0 for a normal
return, 2 for an uncaught panic, the given code for `os.Exit`. -/
def exitStatus {α : Type} : Result α → Nat
  | .ok _ => 0
  | .panic _ => 2
  | .exited code => code

/-! ## Library functions used by the program -/

/-- The call `fmt.Errorf(msg)` with a format that has no verb. -/
def fmt.Errorf (msg : String) : GoError := .errorf msg

/-- The call `fmt.Println(operands...)`. -/
def fmt.Println (operands : List String) : M Unit := emit (.println operands)

/-- The call `log.Fatalln(operands...)`: output followed by `os.Exit(1)`. -/
def log.Fatalln {α : Type} (operands : List String) : M α := do
  emit (.fatalln operands)
  osExit 1

/-- Expansion of the `%s` verbs of a format over characters. -/
def fmt.sprintfChars : List Char → List String → List Char
  | '%' :: 's' :: rest, a :: as => a.data ++ fmt.sprintfChars rest as
  | c :: rest, as => c :: fmt.sprintfChars rest as
  | [], _ => []

/-- The call `fmt.Sprintf(format, args...)` for formats whose verbs are `%s` and string
operands, one operand for each verb. -/
def fmt.Sprintf (format : String) (args : List String) : String :=
  ⟨fmt.sprintfChars format.data args⟩

/-- Split of a character list at every occurrence of `sep`. -/
def strings.splitChars (sep : Char) : List Char → List (List Char)
  | [] => [[]]
  | c :: cs =>
    if c = sep then [] :: strings.splitChars sep cs
    else
      match strings.splitChars sep cs with
      | [] => [[c]]
      | seg :: rest => (c :: seg) :: rest

/-- The call `strings.Split(s, sep)` for a separator of one character (the program
only splits at `":"`): the substrings between the separators; a string without
separator gives the one-element slice holding the string itself. Strings are taken as
sequences of characters. -/
def strings.Split (s : String) (sep : Char) : List String :=
  (strings.splitChars sep s.data).map String.mk

/-- The predicate `unicode.IsSpace`: the white space characters of Unicode. -/
def unicode.IsSpace (c : Char) : Bool :=
  let n := c.toNat
  (9 ≤ n && n ≤ 13) || n = 32 || n = 0x85 || n = 0xA0 || n = 0x1680 ||
  (0x2000 ≤ n && n ≤ 0x200a) || n = 0x2028 || n = 0x2029 || n = 0x202f ||
  n = 0x205f || n = 0x3000

/-- Removal of leading and trailing white space from a character list. -/
def strings.trimChars (cs : List Char) : List Char :=
  ((cs.dropWhile unicode.IsSpace).reverse.dropWhile unicode.IsSpace).reverse

/-- The call `strings.TrimSpace(s)`. -/
def strings.TrimSpace (s : String) : String := ⟨strings.trimChars s.data⟩

/-- The call `dagger.Connect(ctx, ...)`: on success a new client, named by the number
of events before it (so that no two clients share a name). -/
def dagger.Connect (w : World) : M (Except GoError Nat) := fun h =>
  match w.connect h with
  | some msg => (.ok (.error (.backend msg)), [.connectFailed])
  | none => (.ok (.ok h.length), [.acquire h.length])

/-- The call `c.Close()`. -/
def Client.Close (c : Nat) : M Unit := emit (.release c)

/-- The call `ctr.Stdout(ctx)` on a pipeline of client `c`: runs the pipeline and
returns the standard output of its last command and an error. -/
def Container.Stdout (w : World) (c : Nat) (ctr : Container) : M (String × Option GoError) :=
  fun h => (.ok ((w.stdout h c ctr).1, (w.stdout h c ctr).2.map .backend), [.stdout c ctr])

/-- The call `ctr.File(file).Export(ctx, path)` on a pipeline of client `c`: runs the
pipeline and writes the file to the host path. -/
def Container.Export (w : World) (c : Nat) (ctr : Container) (file path : String) :
    M (Bool × Option GoError) :=
  fun h => (.ok ((w.exportFile h c ctr file path).1,
    (w.exportFile h c ctr file path).2.map .backend), [.exportFile c ctr file path])

/-! ## The program -/

/-- The package-level variables `CONTAINER_REGISTRY`, `CONTAINER_REGISTRY_USER` and
`CONTAINER_REGISTRY_PASSWORD`. -/
structure Config where
  CONTAINER_REGISTRY : String
  CONTAINER_REGISTRY_USER : String
  CONTAINER_REGISTRY_PASSWORD : String
  deriving DecidableEq, Repr

/-- The function `getEnv`: the value of an environment variable, or the fallback when
it is not set. `env` is `os.LookupEnv`. -/
def getEnv (env : String → Option String) (key fallback : String) : String :=
  match env key with
  | some value => value
  | none => fallback

/-- The initialisation of the package-level variables. -/
def Config.ofEnv (env : String → Option String) : Config :=
  { CONTAINER_REGISTRY := getEnv env "CONTAINER_REGISTRY" "docker.io"
    CONTAINER_REGISTRY_USER := getEnv env "CONTAINER_REGISTRY_USER" "salaboy"
    CONTAINER_REGISTRY_PASSWORD := getEnv env "CONTAINER_REGISTRY_PASSWORD" "" }

/-- The function `isAnyEmpty`: true at the first value of length 0, false when the loop
ends. -/
def isAnyEmpty : List String → Bool
  | [] => false
  | v :: vals => if v.length = 0 then true else isAnyEmpty vals

/-- The function `getDaggerClient`: connects, and panics with the error of a failed
connection. -/
def getDaggerClient (w : World) : M Nat := do
  emit (.call .getDaggerClient [])
  match (← dagger.Connect w) with
  | .error err => goPanic err
  | .ok c => pure c

/-- The pipeline built in `updateYAML`: the patch tool image, run as `root`, with the
host file mounted and the in-place edit as its command. -/
def updateYAML.pipeline (expr file : String) : Container :=
  (((Container.From "mikefarah/yq:4").WithUser "root").WithFile file "." file).WithExec
    ["-i", expr, file] ""

/-- The pipeline `helm` built in `helmPackage`. -/
def helmPackage.helm : Container :=
  ((Container.From "alpine/helm:3.12.1").WithMountedDirectory "." "./helm/conference-app").WithExec
    ["package", "-u", "."] ""

/-- The pipeline `helm` built in `helmPublish`: the registry login, with the password as
its standard input, then the push of the chart path. -/
def helmPublish.helm (cfg : Config) (chartPackagePath : String) : Container :=
  ((Container.From "alpine/helm:3.12.1").WithExec
    ["registry", "login", "-u", cfg.CONTAINER_REGISTRY_USER, cfg.CONTAINER_REGISTRY,
      "--password-stdin"] cfg.CONTAINER_REGISTRY_PASSWORD).WithExec
    ["push", chartPackagePath,
      fmt.Sprintf "%s%s/%s" ["oci://", cfg.CONTAINER_REGISTRY, cfg.CONTAINER_REGISTRY_USER]] ""

/-- The validation error of `updateYAML`. -/
def updateYAMLError : GoError := fmt.Errorf "expression and file are required to update YAML"

/-- The function `updateYAML`. -/
def updateYAML (w : World) (expr file : String) : M (Bool × Option GoError) := do
  emit (.call .updateYAML [expr, file])
  if isAnyEmpty [expr, file] then
    pure (false, some updateYAMLError)
  else do
    let c ← getDaggerClient w
    deferring (Client.Close c) do
      Container.Export w c (updateYAML.pipeline expr file) file file

/-- The function `helmPackage`. The two results of `updateYAML` are dropped, as in the
source. -/
def helmPackage (w : World) (tag : String) : M (String × Option GoError) := do
  emit (.call .helmPackage [tag])
  let c ← getDaggerClient w
  deferring (Client.Close c) do
    let _ ← updateYAML w tag "values.yaml"
    let r ← Container.Stdout w c helmPackage.helm
    match r.2 with
    | some err => pure ("", some err)
    | none => pure (r.1, none)

/-- The function `helmTest`. -/
def helmTest (tag : String) : M (Option GoError) := do
  emit (.call .helmTest [tag])
  pure none

/-- The function `helmPublish`. -/
def helmPublish (cfg : Config) (w : World) (chart : String) : M (Option GoError) := do
  emit (.call .helmPublish [chart])
  let c ← getDaggerClient w
  deferring (Client.Close c) do
    let segment ← index (strings.Split chart ':') 1
    let chartPackagePath := strings.TrimSpace segment
    let r ← Container.Stdout w c (helmPublish.helm cfg chartPackagePath)
    fmt.Println ["Publish oiut: %s ", r.1]
    pure r.2

/-- The three stage functions `main` calls. -/
structure Stages where
  helmPackage : String → M (String × Option GoError)
  helmTest : String → M (Option GoError)
  helmPublish : String → M (Option GoError)

/-- The body of `main` over the stage functions it calls. Each case of the `switch`
yields the final value of the variable `err` declared at the top of `main`: in the cases
`package`, `publish` and `all` the results of the stages are bound with `:=` to a new
`err` of the case, so the outer one keeps its value. -/
def mainWith (s : Stages) (osArgs : List String) : M Unit := do
  if osArgs.length < 2 then
    goPanic (fmt.Errorf
      "invalid number of arguments: expected command (build, publish-image, helm-package)")
  else do
    let verb ← index osArgs 1
    let err : Option GoError ←
      if verb = "package" then
        if osArgs.length < 3 then
          pure (some (fmt.Errorf "invalid number of arguments: expected chart tag"))
        else do
          let tag ← index osArgs 2
          let r ← s.helmPackage tag
          match r.2 with
          | some e => fmt.Println ["Packaging error: %v ", e.Error]
          | none => pure ()
          pure none
      else if verb = "test" then
        if osArgs.length < 3 then
          pure (some (fmt.Errorf "invalid number of arguments: expected chart tag"))
        else do
          let tag ← index osArgs 2
          s.helmTest tag
      else if verb = "publish" then
        if osArgs.length < 3 then
          pure (some (fmt.Errorf "invalid number of arguments: expected chart tag"))
        else do
          let tag ← index osArgs 2
          let r ← s.helmPackage tag
          match r.2 with
          | some e => fmt.Println ["Packaging error: %v ", e.Error]
          | none => pure ()
          let errPublish ← s.helmPublish r.1
          match errPublish with
          | some e => fmt.Println ["Publishing error: %v ", e.Error]
          | none => pure ()
          pure none
      else if verb = "all" then do
        let tag ← index osArgs 2
        let r ← s.helmPackage tag
        match r.2 with
        | some e => goPanic e
        | none => pure ()
        let tagTest ← index osArgs 2
        let errTest ← s.helmTest tagTest
        match errTest with
        | some e => goPanic e
        | none => pure ()
        let errPublish ← s.helmPublish r.1
        match errPublish with
        | some e => goPanic e
        | none => pure ()
        pure none
      else
        log.Fatalln ["invalid command specified"]
    match err with
    | some e => goPanic e
    | none => pure ()

/-- The stage functions of the program. -/
def stages (cfg : Config) (w : World) : Stages :=
  { helmPackage := helmPackage w
    helmTest := helmTest
    helmPublish := helmPublish cfg w }

/-- The function `main` on the argument vector `os.Args`. -/
def main (cfg : Config) (w : World) (osArgs : List String) : M Unit :=
  mainWith (stages cfg w) osArgs


/-! ## Observations on runs -/

/-- The entries of the three stage functions in a sequence of events, in order, each
with the argument it was entered with. -/
def stageCalls : List Event → List (Fn × List String)
  | [] => []
  | .call .helmPackage args :: es => (.helmPackage, args) :: stageCalls es
  | .call .helmTest args :: es => (.helmTest, args) :: stageCalls es
  | .call .helmPublish args :: es => (.helmPublish, args) :: stageCalls es
  | _ :: es => stageCalls es

/-- The verbs of the command line. -/
def verbs : List String := ["package", "test", "publish", "all"]

/-- Events of the container backend: connections, releases and forced pipelines. -/
def Event.isBackend : Event → Bool
  | .acquire _ => true
  | .connectFailed => true
  | .release _ => true
  | .stdout _ _ => true
  | .exportFile _ _ _ _ => true
  | _ => false

/-- The commands that were run: the `WithExec` steps of every forced pipeline, in
order. -/
def issuedCommands : List Event → List Exec
  | [] => []
  | .stdout _ ctr :: es => ctr.execs ++ issuedCommands es
  | .exportFile _ ctr _ _ :: es => ctr.execs ++ issuedCommands es
  | _ :: es => issuedCommands es

/-- Scoped use of clients over a sequence of events, given the clients held and the
clients already released: a client is acquired only when it is new, released only while
it is held, and at the end none is held. -/
def releaseDiscipline : List Nat → List Nat → List Event → Bool
  | held, _, [] => held.isEmpty
  | held, released, .acquire c :: es =>
    !held.contains c && !released.contains c && releaseDiscipline (c :: held) released es
  | held, released, .release c :: es =>
    held.contains c && releaseDiscipline (held.erase c) (c :: released) es
  | held, released, _ :: es => releaseDiscipline held released es

/-- The clients acquired in a sequence of events. -/
def acquired : List Event → List Nat
  | [] => []
  | .acquire c :: es => c :: acquired es
  | _ :: es => acquired es

/-- The clients released in a sequence of events. -/
def released : List Event → List Nat
  | [] => []
  | .release c :: es => c :: released es
  | _ :: es => released es

/-- A backend where every connection and every pipeline succeeds and the chart tool
reports the archive it wrote. -/
def World.allSucceed : World :=
  { connect := fun _ => none
    stdout := fun _ _ _ =>
      ("Successfully packaged chart and saved it to: /conference-app-v1.0.0.tgz\n", none)
    exportFile := fun _ _ _ _ _ => (true, none) }

/-- A backend where the chart packaging tool fails. -/
def World.packagingFails : World :=
  { connect := fun _ => none
    stdout := fun _ _ _ => ("", some "exit code: 1")
    exportFile := fun _ _ _ _ _ => (true, none) }

/-- A backend where packaging succeeds and the registry rejects the login: a pipeline
of one command is the packaging, a longer one the login and push. -/
def World.registryRejects : World :=
  { connect := fun _ => none
    stdout := fun _ _ ctr =>
      match ctr.execs with
      | [_] => ("Successfully packaged chart and saved it to: /conference-app-v1.0.0.tgz\n", none)
      | _ => ("", some "unauthorized: incorrect username or password")
    exportFile := fun _ _ _ _ _ => (true, none) }

/-- The registry settings when no environment variable is set. -/
def Config.default : Config := Config.ofEnv (fun _ => none)

/-- The chart paths given to `push` commands: the first operand of every command whose
first argument is `push`. -/
def pushedPaths : List Exec → List String
  | [] => []
  | x :: xs =>
    match x.args with
    | cmd :: path :: _ => if cmd = "push" then path :: pushedPaths xs else pushedPaths xs
    | _ => pushedPaths xs

/-! ## Running the program: equations for each function -/

theorem bind_run {α β : Type} (m : M α) (f : α → M β) (h : List Event) :
    (m >>= f) h = M.bind m f h := rfl

theorem pure_run {α : Type} (a : α) (h : List Event) : (pure a : M α) h = (.ok a, []) := rfl

theorem bind_ok {α β : Type} (m : M α) (f : α → M β) (h : List Event) (a : α) (e1 : List Event)
    (hm : m h = (.ok a, e1)) :
    (m >>= f) h = ((f a (h ++ e1)).1, e1 ++ (f a (h ++ e1)).2) := by
  show M.bind m f h = _
  simp [M.bind, hm]

theorem emit_bind {β : Type} (e : Event) (f : Unit → M β) (h : List Event) :
    (emit e >>= f) h = ((f () (h ++ [e])).1, e :: (f () (h ++ [e])).2) := by
  rw [bind_ok (emit e) f h () [e] rfl]; rfl

theorem String.length_eq_zero_iff_eq_empty (s : String) : s.length = 0 ↔ s = "" := by
  constructor
  · intro hs
    cases s with
    | mk data =>
      have hd : data = [] := List.length_eq_zero.mp hs
      subst hd
      rfl
  · rintro rfl; rfl

theorem isAnyEmpty_eq_true_iff (vals : List String) :
    isAnyEmpty vals = true ↔ ∃ v ∈ vals, v.length = 0 := by
  induction vals with
  | nil => simp [isAnyEmpty]
  | cons v vals ih =>
    by_cases hv : v.length = 0
    · simp [isAnyEmpty, hv]
    · simp [isAnyEmpty, hv, ih]

theorem getDaggerClient_run (w : World) (h : List Event) :
    getDaggerClient w h =
      match w.connect (h ++ [.call .getDaggerClient []]) with
      | some msg => (.panic (.backend msg), [.call .getDaggerClient [], .connectFailed])
      | none => (.ok (h.length + 1), [.call .getDaggerClient [], .acquire (h.length + 1)]) := by
  unfold getDaggerClient
  rw [emit_bind]
  cases hc : w.connect (h ++ [.call .getDaggerClient []]) <;>
    simp [bind_run, M.bind, dagger.Connect, hc, goPanic, pure_run]

theorem updateYAML_run (w : World) (expr file : String) (h : List Event) :
    updateYAML w expr file h =
      if isAnyEmpty [expr, file] = true then
        (.ok (false, some updateYAMLError), [.call .updateYAML [expr, file]])
      else
        match w.connect (h ++ [.call .updateYAML [expr, file], .call .getDaggerClient []]) with
        | some msg =>
          (.panic (.backend msg),
            [.call .updateYAML [expr, file], .call .getDaggerClient [], .connectFailed])
        | none =>
          (.ok ((w.exportFile
                  (h ++ [.call .updateYAML [expr, file], .call .getDaggerClient [],
                    .acquire (h.length + 2)])
                  (h.length + 2) (updateYAML.pipeline expr file) file file).1,
                (w.exportFile
                  (h ++ [.call .updateYAML [expr, file], .call .getDaggerClient [],
                    .acquire (h.length + 2)])
                  (h.length + 2) (updateYAML.pipeline expr file) file file).2.map .backend),
            [.call .updateYAML [expr, file], .call .getDaggerClient [], .acquire (h.length + 2),
              .exportFile (h.length + 2) (updateYAML.pipeline expr file) file file,
              .release (h.length + 2)]) := by
  unfold updateYAML
  rw [emit_bind]
  by_cases he : isAnyEmpty [expr, file] = true
  · simp [he, pure_run]
  · simp only [he, if_false, Bool.false_eq_true]
    cases hc : w.connect (h ++ [.call .updateYAML [expr, file], .call .getDaggerClient []]) <;>
      simp [bind_run, M.bind, getDaggerClient_run, hc, deferring, Container.Export, Client.Close,
        emit]

theorem helmPackage_run (w : World) (tag : String) (h : List Event) :
    helmPackage w tag h =
      match w.connect (h ++ [.call .helmPackage [tag], .call .getDaggerClient []]) with
      | some msg =>
        (.panic (.backend msg),
          [.call .helmPackage [tag], .call .getDaggerClient [], .connectFailed])
      | none =>
        match updateYAML w tag "values.yaml"
            (h ++ [.call .helmPackage [tag], .call .getDaggerClient [],
              .acquire (h.length + 2)]) with
        | (.ok _, e1) =>
          (.ok (match (w.stdout
                    (h ++ [.call .helmPackage [tag], .call .getDaggerClient [],
                      .acquire (h.length + 2)] ++ e1)
                    (h.length + 2) helmPackage.helm).2 with
                | some msg => ("", some (.backend msg))
                | none =>
                  ((w.stdout
                    (h ++ [.call .helmPackage [tag], .call .getDaggerClient [],
                      .acquire (h.length + 2)] ++ e1)
                    (h.length + 2) helmPackage.helm).1, none)),
            [.call .helmPackage [tag], .call .getDaggerClient [], .acquire (h.length + 2)] ++ e1
              ++ [.stdout (h.length + 2) helmPackage.helm, .release (h.length + 2)])
        | (.panic v, e1) =>
          (.panic v,
            [.call .helmPackage [tag], .call .getDaggerClient [], .acquire (h.length + 2)] ++ e1
              ++ [.release (h.length + 2)])
        | (.exited n, e1) =>
          (.exited n,
            [.call .helmPackage [tag], .call .getDaggerClient [], .acquire (h.length + 2)]
              ++ e1) := by
  unfold helmPackage
  rw [emit_bind]
  cases hc : w.connect (h ++ [.call .helmPackage [tag], .call .getDaggerClient []]) with
  | some msg => simp [bind_run, M.bind, getDaggerClient_run, hc]
  | none =>
    have h2 : h.length + 1 + 1 = h.length + 2 := rfl
    simp only [bind_run, M.bind, getDaggerClient_run, hc, deferring, List.length_append,
      List.length_singleton, List.append_assoc, List.singleton_append, List.cons_append,
      List.nil_append, h2]
    rcases hu : updateYAML w tag "values.yaml"
        (h ++ [.call .helmPackage [tag], .call .getDaggerClient [],
          .acquire (h.length + 2)]) with ⟨r, e1⟩
    cases r with
    | ok a =>
      cases hs : (w.stdout
          (h ++ [.call .helmPackage [tag], .call .getDaggerClient [],
            .acquire (h.length + 2)] ++ e1) (h.length + 2) helmPackage.helm).2 <;>
        simp_all [pure_run, Container.Stdout, Client.Close, emit]
    | panic v => simp_all [Client.Close, emit]
    | exited n => simp_all

theorem helmPublish_run (cfg : Config) (w : World) (chart : String) (h : List Event) :
    helmPublish cfg w chart h =
      match w.connect (h ++ [.call .helmPublish [chart], .call .getDaggerClient []]) with
      | some msg =>
        (.panic (.backend msg),
          [.call .helmPublish [chart], .call .getDaggerClient [], .connectFailed])
      | none =>
        match (strings.Split chart ':')[1]? with
        | none =>
          (.panic (.indexOutOfRange 1 (strings.Split chart ':').length),
            [.call .helmPublish [chart], .call .getDaggerClient [], .acquire (h.length + 2),
              .release (h.length + 2)])
        | some segment =>
          (.ok ((w.stdout
                  (h ++ [.call .helmPublish [chart], .call .getDaggerClient [],
                    .acquire (h.length + 2)])
                  (h.length + 2) (helmPublish.helm cfg (strings.TrimSpace segment))).2.map
                .backend),
            [.call .helmPublish [chart], .call .getDaggerClient [], .acquire (h.length + 2),
              .stdout (h.length + 2) (helmPublish.helm cfg (strings.TrimSpace segment)),
              .println ["Publish oiut: %s ",
                (w.stdout
                  (h ++ [.call .helmPublish [chart], .call .getDaggerClient [],
                    .acquire (h.length + 2)])
                  (h.length + 2) (helmPublish.helm cfg (strings.TrimSpace segment))).1],
              .release (h.length + 2)]) := by
  unfold helmPublish
  rw [emit_bind]
  cases hc : w.connect (h ++ [.call .helmPublish [chart], .call .getDaggerClient []]) with
  | some msg => simp [bind_run, M.bind, getDaggerClient_run, hc]
  | none =>
    cases hs : (strings.Split chart ':')[1]? <;>
      simp [bind_run, M.bind, getDaggerClient_run, hc, deferring, index, hs, goPanic, pure_run,
        Container.Stdout, Client.Close, emit, fmt.Println]

theorem ite_run {α : Type} (c : Prop) [Decidable c] (a b : M α) (h : List Event) :
    (if c then a else b) h = if c then a h else b h := by
  split <;> rfl

theorem mainWith_noVerb (s : Stages) (osArgs : List String) (h : List Event)
    (hlen : osArgs.length < 2) :
    mainWith s osArgs h =
      (.panic (fmt.Errorf
        "invalid number of arguments: expected command (build, publish-image, helm-package)"),
        []) := by
  simp [mainWith, hlen, goPanic]

theorem mainWith_unknownVerb (s : Stages) (prog verb : String) (rest : List String)
    (h : List Event)
    (hp : verb ≠ "package") (ht : verb ≠ "test") (hpub : verb ≠ "publish") (ha : verb ≠ "all") :
    mainWith s (prog :: verb :: rest) h =
      (.exited 1, [.fatalln ["invalid command specified"]]) := by
  have hlen : ¬ (prog :: verb :: rest).length < 2 := by simp
  simp only [mainWith, ite_run, if_neg hlen]
  simp [bind_run, M.bind, index, pure_run, hp, ht, hpub, ha, log.Fatalln, emit, osExit, ite_run]

theorem mainWith_noTag (s : Stages) (prog verb : String) (h : List Event)
    (hv : verb = "package" ∨ verb = "test" ∨ verb = "publish") :
    mainWith s [prog, verb] h =
      (.panic (fmt.Errorf "invalid number of arguments: expected chart tag"), []) := by
  rcases hv with rfl | rfl | rfl <;>
    simp [mainWith, bind_run, M.bind, index, pure_run, goPanic, ite_run]

theorem mainWith_all_noTag (s : Stages) (prog : String) (h : List Event) :
    mainWith s [prog, "all"] h = (.panic (.indexOutOfRange 2 2), []) := by
  simp [mainWith, bind_run, M.bind, index, pure_run, goPanic, ite_run]

theorem mainWith_all_run (s : Stages) (prog tag : String) (rest : List String)
    (h : List Event) :
    mainWith s (prog :: "all" :: tag :: rest) h =
      match s.helmPackage tag h with
      | (.ok (_, some e), e1) => (.panic e, e1)
      | (.ok (chart, none), e1) =>
        match s.helmTest tag (h ++ e1) with
        | (.ok (some e), e2) => (.panic e, e1 ++ e2)
        | (.ok none, e2) =>
          match s.helmPublish chart (h ++ e1 ++ e2) with
          | (.ok (some e), e3) => (.panic e, e1 ++ e2 ++ e3)
          | (.ok none, e3) => (.ok (), e1 ++ e2 ++ e3)
          | (.panic v, e3) => (.panic v, e1 ++ e2 ++ e3)
          | (.exited n, e3) => (.exited n, e1 ++ e2 ++ e3)
        | (.panic v, e2) => (.panic v, e1 ++ e2)
        | (.exited n, e2) => (.exited n, e1 ++ e2)
      | (.panic v, e1) => (.panic v, e1)
      | (.exited n, e1) => (.exited n, e1) := by
  have hlen : ¬ (prog :: "all" :: tag :: rest).length < 2 := by simp
  simp only [mainWith, ite_run, if_neg hlen]
  rcases hp : s.helmPackage tag h with ⟨r1, e1⟩
  rcases r1 with ⟨chart, _ | e⟩ | v | n
  · rcases ht : s.helmTest tag (h ++ e1) with ⟨r2, e2⟩
    rcases r2 with (_ | e) | v | n
    · rcases hpub : s.helmPublish chart (h ++ (e1 ++ e2)) with ⟨r3, e3⟩
      rcases r3 with (_ | e) | v | n <;>
        simp [bind_run, M.bind, index, ite_run, pure_run, goPanic, hp, ht, hpub]
    · simp [bind_run, M.bind, index, ite_run, pure_run, goPanic, hp, ht]
    · simp [bind_run, M.bind, index, ite_run, pure_run, goPanic, hp, ht]
    · simp [bind_run, M.bind, index, ite_run, pure_run, goPanic, hp, ht]
  · simp [bind_run, M.bind, index, ite_run, pure_run, goPanic, hp]
  · simp [bind_run, M.bind, index, ite_run, pure_run, goPanic, hp]
  · simp [bind_run, M.bind, index, ite_run, pure_run, goPanic, hp]

theorem helmTest_run (tag : String) (h : List Event) :
    helmTest tag h = (.ok none, [.call .helmTest [tag]]) := by
  unfold helmTest
  rw [emit_bind]
  rfl

theorem stageCalls_append (es fs : List Event) :
    stageCalls (es ++ fs) = stageCalls es ++ stageCalls fs := by
  induction es with
  | nil => rfl
  | cons e es ih =>
    cases e with
    | call fn args => cases fn <;> simp [stageCalls, ih]
    | _ => simp [stageCalls, ih]

theorem stageCalls_helmPackage (w : World) (tag : String) (h : List Event) :
    stageCalls (helmPackage w tag h).2 = [(.helmPackage, [tag])] := by
  rw [helmPackage_run]
  cases hc : w.connect (h ++ [.call .helmPackage [tag], .call .getDaggerClient []]) with
  | some msg => simp [stageCalls]
  | none =>
    simp only [updateYAML_run]
    by_cases he : isAnyEmpty [tag, "values.yaml"] = true
    · simp [he, stageCalls]
    · simp only [he, if_false, Bool.false_eq_true]
      cases hc2 : w.connect
          (h ++ [.call .helmPackage [tag], .call .getDaggerClient [],
            .acquire (h.length + 2)] ++
            [.call .updateYAML [tag, "values.yaml"], .call .getDaggerClient []]) <;>
        simp [stageCalls]

theorem stageCalls_helmPublish (cfg : Config) (w : World) (chart : String) (h : List Event) :
    stageCalls (helmPublish cfg w chart h).2 = [(.helmPublish, [chart])] := by
  rw [helmPublish_run]
  cases hc : w.connect (h ++ [.call .helmPublish [chart], .call .getDaggerClient []]) with
  | some msg => simp [stageCalls]
  | none => cases hs : (strings.Split chart ':')[1]? <;> simp [stageCalls]

/-! ## Splitting and trimming -/

theorem strings.splitChars_of_not_mem (sep : Char) (cs : List Char) (hcs : sep ∉ cs) :
    strings.splitChars sep cs = [cs] := by
  induction cs with
  | nil => rfl
  | cons c cs ih =>
    have hc : c ≠ sep := fun hEq => hcs (by simp [hEq])
    have hrest : sep ∉ cs := fun hm => hcs (List.mem_cons_of_mem _ hm)
    simp [strings.splitChars, hc, ih hrest]

theorem strings.splitChars_append_sep (sep : Char) (pre post : List Char) (hpre : sep ∉ pre) :
    strings.splitChars sep (pre ++ sep :: post) = pre :: strings.splitChars sep post := by
  induction pre with
  | nil => simp [strings.splitChars]
  | cons c pre ih =>
    have hc : c ≠ sep := fun hEq => hpre (by simp [hEq])
    have hrest : sep ∉ pre := fun hm => hpre (List.mem_cons_of_mem _ hm)
    simp [strings.splitChars, hc, ih hrest]

theorem strings.Split_one_colon (name rest : String) (hname : ':' ∉ name.data)
    (hrest : ':' ∉ rest.data) :
    strings.Split (name ++ ":" ++ rest) ':' = [name, rest] := by
  have hdata : (name ++ ":" ++ rest).data = name.data ++ ':' :: rest.data := by
    simp [String.data_append]
  simp [strings.Split, hdata, strings.splitChars_append_sep _ _ _ hname,
    strings.splitChars_of_not_mem _ _ hrest]

theorem strings.trimChars_spec (cs : List Char) :
    ∃ l r, cs = l ++ strings.trimChars cs ++ r ∧
      (∀ c ∈ l, unicode.IsSpace c = true) ∧ (∀ c ∈ r, unicode.IsSpace c = true) ∧
      (∀ c, (strings.trimChars cs).head? = some c → unicode.IsSpace c = false) ∧
      (∀ c, (strings.trimChars cs).getLast? = some c → unicode.IsSpace c = false) := by
  set m := cs.dropWhile unicode.IsSpace with hm
  have hsplit : m = strings.trimChars cs ++ (m.reverse.takeWhile unicode.IsSpace).reverse := by
    have h1 := List.takeWhile_append_dropWhile unicode.IsSpace m.reverse
    have h2 := congrArg List.reverse h1
    simp only [List.reverse_append, List.reverse_reverse] at h2
    exact h2.symm
  have hlast : ∀ c, (strings.trimChars cs).getLast? = some c → unicode.IsSpace c = false := by
    intro c hc
    have h1 := List.head?_dropWhile_not unicode.IsSpace m.reverse
    have h2 : (m.reverse.dropWhile unicode.IsSpace).head? = some c := by
      simpa [strings.trimChars, List.getLast?_reverse] using hc
    rw [h2] at h1
    simpa using h1
  refine ⟨cs.takeWhile unicode.IsSpace, (m.reverse.takeWhile unicode.IsSpace).reverse, ?_,
    ?_, ?_, ?_, hlast⟩
  · rw [List.append_assoc, ← hsplit, hm, List.takeWhile_append_dropWhile]
  · intro c hc
    exact List.mem_takeWhile_imp hc
  · intro c hc
    exact List.mem_takeWhile_imp (List.mem_reverse.mp hc)
  · intro c hc
    have h1 := List.head?_dropWhile_not unicode.IsSpace cs
    have h2 : m.head? = some c := by
      rw [hsplit]
      cases ht : strings.trimChars cs with
      | nil => simp [ht] at hc
      | cons a t => simpa [ht] using hc
    rw [← hm, h2] at h1
    simpa using h1

theorem fmt.Sprintf_destination (host user : String) :
    fmt.Sprintf "%s%s/%s" ["oci://", host, user] = "oci://" ++ host ++ "/" ++ user := by
  apply String.ext
  simp [fmt.Sprintf, fmt.sprintfChars, String.data_append]

/-! ## Claims -/

/-- C7. `updateYAML` returns `(false, validation error)` having done nothing but enter
(no connection, no container) exactly when the expression or the file is the empty
string. When both are non-empty the result is never the validation error and the
container work is attempted: the function asks the backend for a client; when the
connection is made it runs the patch pipeline on that client, exports the file, releases
the client and returns what the export returned; when the connection fails it panics
with the connection error. `isAnyEmpty` is true exactly when one of its arguments has
length 0. -/
theorem updateYAML_validation_iff_empty (w : World) (expr file : String) (h : List Event) :
    (updateYAML w expr file h =
        (.ok (false, some updateYAMLError), [.call .updateYAML [expr, file]]) ↔
      (expr = "" ∨ file = "")) ∧
    (expr ≠ "" → file ≠ "" →
      (∀ b, (updateYAML w expr file h).1 ≠ .ok (b, some updateYAMLError)) ∧
      (w.connect (h ++ [.call .updateYAML [expr, file], .call .getDaggerClient []]) = none →
        updateYAML w expr file h =
          (.ok ((w.exportFile
                  (h ++ [.call .updateYAML [expr, file], .call .getDaggerClient [],
                    .acquire (h.length + 2)])
                  (h.length + 2) (updateYAML.pipeline expr file) file file).1,
                (w.exportFile
                  (h ++ [.call .updateYAML [expr, file], .call .getDaggerClient [],
                    .acquire (h.length + 2)])
                  (h.length + 2) (updateYAML.pipeline expr file) file file).2.map .backend),
            [.call .updateYAML [expr, file], .call .getDaggerClient [],
              .acquire (h.length + 2),
              .exportFile (h.length + 2) (updateYAML.pipeline expr file) file file,
              .release (h.length + 2)])) ∧
      (∀ msg,
        w.connect (h ++ [.call .updateYAML [expr, file], .call .getDaggerClient []]) =
            some msg →
          updateYAML w expr file h =
            (.panic (.backend msg),
              [.call .updateYAML [expr, file], .call .getDaggerClient [], .connectFailed]))) ∧
    (∀ vals : List String, isAnyEmpty vals = true ↔ ∃ v ∈ vals, v.length = 0) := by
  have hempty : isAnyEmpty [expr, file] = true ↔ (expr = "" ∨ file = "") := by
    rw [isAnyEmpty_eq_true_iff]
    constructor
    · rintro ⟨v, hv, hlen⟩
      rw [String.length_eq_zero_iff_eq_empty] at hlen
      subst hlen
      simpa [eq_comm] using hv
    · rintro (rfl | rfl)
      · exact ⟨"", by simp, rfl⟩
      · exact ⟨"", by simp, rfl⟩
  have hrun : updateYAML w expr file h =
      if isAnyEmpty [expr, file] = true then
        (.ok (false, some updateYAMLError), [.call .updateYAML [expr, file]])
      else
        match w.connect (h ++ [.call .updateYAML [expr, file], .call .getDaggerClient []]) with
        | some msg =>
          (.panic (.backend msg),
            [.call .updateYAML [expr, file], .call .getDaggerClient [], .connectFailed])
        | none =>
          (.ok ((w.exportFile
                  (h ++ [.call .updateYAML [expr, file], .call .getDaggerClient [],
                    .acquire (h.length + 2)])
                  (h.length + 2) (updateYAML.pipeline expr file) file file).1,
                (w.exportFile
                  (h ++ [.call .updateYAML [expr, file], .call .getDaggerClient [],
                    .acquire (h.length + 2)])
                  (h.length + 2) (updateYAML.pipeline expr file) file file).2.map .backend),
            [.call .updateYAML [expr, file], .call .getDaggerClient [], .acquire (h.length + 2),
              .exportFile (h.length + 2) (updateYAML.pipeline expr file) file file,
              .release (h.length + 2)]) := by
    unfold updateYAML
    rw [emit_bind]
    by_cases he : isAnyEmpty [expr, file] = true
    · simp [he, pure_run]
    · simp only [he, if_false, Bool.false_eq_true]
      cases hc : w.connect (h ++ [.call .updateYAML [expr, file], .call .getDaggerClient []]) <;>
        simp [bind_run, M.bind, getDaggerClient_run, hc, deferring, Container.Export,
          Client.Close, emit]
  refine ⟨?_, ?_, isAnyEmpty_eq_true_iff⟩
  · rw [hrun, ← hempty]
    by_cases he : isAnyEmpty [expr, file] = true
    · simp [he]
    · simp only [he, if_false, Bool.false_eq_true, iff_false]
      cases hc : w.connect (h ++ [.call .updateYAML [expr, file], .call .getDaggerClient []]) <;>
        simp
  · intro hexpr hfile
    have he : ¬ isAnyEmpty [expr, file] = true := by
      rw [hempty]; simp [hexpr, hfile]
    rw [hrun]
    simp only [he, if_false, Bool.false_eq_true]
    refine ⟨?_, ?_, ?_⟩
    · cases hc : w.connect (h ++ [.call .updateYAML [expr, file], .call .getDaggerClient []])
      · intro b hb
        simp only [Result.ok.injEq, Prod.mk.injEq] at hb
        cases hx : (w.exportFile
            (h ++ [.call .updateYAML [expr, file], .call .getDaggerClient [],
              .acquire (h.length + 2)])
            (h.length + 2) (updateYAML.pipeline expr file) file file).2 <;>
          simp [hx, updateYAMLError, fmt.Errorf] at hb
      · exact fun b hb => by simp at hb
    · intro hc
      rw [hc]
    · intro msg hc
      rw [hc]

/-- Witness for C7: a patch of the version field in `values.yaml` on a backend where
everything succeeds is never the validation error, and the patch pipeline is run on the
client that was acquired and released. -/
theorem updateYAML_validation_iff_empty_witness :
    (∀ b, (updateYAML World.allSucceed "v1.0.0" "values.yaml" []).1 ≠
        .ok (b, some updateYAMLError)) ∧
    updateYAML World.allSucceed "v1.0.0" "values.yaml" [] =
      (.ok (true, none),
        [.call .updateYAML ["v1.0.0", "values.yaml"], .call .getDaggerClient [], .acquire 2,
          .exportFile 2 (updateYAML.pipeline "v1.0.0" "values.yaml") "values.yaml"
            "values.yaml",
          .release 2]) :=
  ⟨((updateYAML_validation_iff_empty World.allSucceed "v1.0.0" "values.yaml" []).2.1
      (by decide) (by decide)).1,
    ((updateYAML_validation_iff_empty World.allSucceed "v1.0.0" "values.yaml" []).2.1
      (by decide) (by decide)).2.1 rfl⟩

/-- C3. For an argument vector without verb, with a verb outside `package`, `test`,
`publish`, `all`, or with one of these verbs and no tag, `main` enters none of
`helmPackage`, `helmTest`, `helmPublish`, `updateYAML`, `getDaggerClient`, makes no
request to the container backend, runs no command, and the process ends with a non-zero
status. -/
theorem main_malformed_invokes_nothing (cfg : Config) (w : World) (osArgs : List String)
    (h : List Event)
    (hbad : osArgs.length < 2 ∨
      (∃ verb, osArgs[1]? = some verb ∧ verb ∉ verbs) ∨
      (∃ verb, osArgs[1]? = some verb ∧ verb ∈ verbs ∧ osArgs.length < 3)) :
    (∀ fn args, Event.call fn args ∉ (main cfg w osArgs h).2) ∧
    (∀ e ∈ (main cfg w osArgs h).2, e.isBackend = false) ∧
    issuedCommands (main cfg w osArgs h).2 = [] ∧
    exitStatus (main cfg w osArgs h).1 ≠ 0 := by
  have hshape : (main cfg w osArgs h).2 = [] ∧ (∃ v, (main cfg w osArgs h).1 = .panic v) ∨
      (main cfg w osArgs h).2 = [.fatalln ["invalid command specified"]] ∧
        (main cfg w osArgs h).1 = .exited 1 := by
    unfold main
    rcases hbad with hlen | ⟨verb, hverb, hnot⟩ | ⟨verb, hverb, hin, hlen⟩
    · rw [mainWith_noVerb _ _ _ hlen]
      exact Or.inl ⟨rfl, _, rfl⟩
    · match osArgs, hverb with
      | prog :: v :: rest, hverb =>
        simp only [List.getElem?_cons_succ, List.getElem?_cons_zero, Option.some.injEq] at hverb
        subst hverb
        simp only [verbs, List.mem_cons, List.mem_singleton, List.not_mem_nil, or_false,
          not_or] at hnot
        rw [mainWith_unknownVerb _ _ _ _ _ hnot.1 hnot.2.1 hnot.2.2.1 hnot.2.2.2]
        exact Or.inr ⟨rfl, rfl⟩
    · match osArgs, hverb, hlen with
      | [prog, v], hverb, _ =>
        simp only [List.getElem?_cons_succ, List.getElem?_cons_zero, Option.some.injEq] at hverb
        subst hverb
        simp only [verbs, List.mem_cons, List.mem_singleton, List.not_mem_nil, or_false] at hin
        rcases hin with hv | hv | hv | hv
        · rw [mainWith_noTag _ _ _ _ (Or.inl hv)]
          exact Or.inl ⟨rfl, _, rfl⟩
        · rw [mainWith_noTag _ _ _ _ (Or.inr (Or.inl hv))]
          exact Or.inl ⟨rfl, _, rfl⟩
        · rw [mainWith_noTag _ _ _ _ (Or.inr (Or.inr hv))]
          exact Or.inl ⟨rfl, _, rfl⟩
        · subst hv
          rw [mainWith_all_noTag]
          exact Or.inl ⟨rfl, _, rfl⟩
      | _ :: _ :: _ :: _, _, hlen => exact absurd hlen (by simp)
  rcases hshape with ⟨hev, v, hres⟩ | ⟨hev, hres⟩
  · simp [hev, hres, issuedCommands, exitStatus]
  · simp [hev, hres, issuedCommands, exitStatus, Event.isBackend]

/-- Witness for C3: the verb `all` without a tag. -/
theorem main_malformed_invokes_nothing_witness :
    (∀ fn args, Event.call fn args ∉
      (main Config.default World.allSucceed ["helm-chart-pipeline", "all"] []).2) ∧
    (∀ e ∈ (main Config.default World.allSucceed ["helm-chart-pipeline", "all"] []).2,
      e.isBackend = false) ∧
    issuedCommands (main Config.default World.allSucceed ["helm-chart-pipeline", "all"] []).2
      = [] ∧
    exitStatus (main Config.default World.allSucceed ["helm-chart-pipeline", "all"] []).1 ≠ 0 :=
  main_malformed_invokes_nothing Config.default World.allSucceed
    ["helm-chart-pipeline", "all"] []
    (Or.inr (Or.inr ⟨"all", rfl, by decide, by decide⟩))

/-- C2. The verb `all` with a tag, on the program: `main` enters `helmPackage` on the
tag; when that returns an error or panics, `main` panics and neither `helmTest` nor
`helmPublish` is entered; otherwise it enters `helmTest` on the tag and then
`helmPublish` on exactly the string `helmPackage` returned, and panics with the error of
`helmPublish` if there is one. The same dispatch for arbitrary stage functions (which
may return an error, panic, and depend on what happened before): the stages run in the
order `helmPackage`, `helmTest`, `helmPublish`, and after the first one that returns an
error `main` panics with that error and the run holds no event of a later stage; in
particular after a failed `helmTest` the publish stage is not run. -/
theorem main_all_runs_stages_in_order (cfg : Config) (w : World) (prog tag : String)
    (rest : List String) (h : List Event) :
    (main cfg w (prog :: "all" :: tag :: rest) h =
      match helmPackage w tag h with
      | (.ok (_, some e), e1) => (.panic e, e1)
      | (.ok (chart, none), e1) =>
        match helmPublish cfg w chart (h ++ e1 ++ [.call .helmTest [tag]]) with
        | (.ok (some e), e3) => (.panic e, e1 ++ [.call .helmTest [tag]] ++ e3)
        | (.ok none, e3) => (.ok (), e1 ++ [.call .helmTest [tag]] ++ e3)
        | (.panic v, e3) => (.panic v, e1 ++ [.call .helmTest [tag]] ++ e3)
        | (.exited n, e3) => (.exited n, e1 ++ [.call .helmTest [tag]] ++ e3)
      | (.panic v, e1) => (.panic v, e1)
      | (.exited n, e1) => (.exited n, e1)) ∧
    (stageCalls (main cfg w (prog :: "all" :: tag :: rest) h).2 =
      match (helmPackage w tag h).1 with
      | .ok (chart, none) =>
        [(.helmPackage, [tag]), (.helmTest, [tag]), (.helmPublish, [chart])]
      | _ => [(.helmPackage, [tag])]) ∧
    (∀ s : Stages,
      mainWith s (prog :: "all" :: tag :: rest) h =
        match s.helmPackage tag h with
        | (.ok (_, some e), e1) => (.panic e, e1)
        | (.ok (chart, none), e1) =>
          match s.helmTest tag (h ++ e1) with
          | (.ok (some e), e2) => (.panic e, e1 ++ e2)
          | (.ok none, e2) =>
            match s.helmPublish chart (h ++ e1 ++ e2) with
            | (.ok (some e), e3) => (.panic e, e1 ++ e2 ++ e3)
            | (.ok none, e3) => (.ok (), e1 ++ e2 ++ e3)
            | (.panic v, e3) => (.panic v, e1 ++ e2 ++ e3)
            | (.exited n, e3) => (.exited n, e1 ++ e2 ++ e3)
          | (.panic v, e2) => (.panic v, e1 ++ e2)
          | (.exited n, e2) => (.exited n, e1 ++ e2)
        | (.panic v, e1) => (.panic v, e1)
        | (.exited n, e1) => (.exited n, e1)) := by
  have hmain : main cfg w (prog :: "all" :: tag :: rest) h =
      match helmPackage w tag h with
      | (.ok (_, some e), e1) => (.panic e, e1)
      | (.ok (chart, none), e1) =>
        match helmPublish cfg w chart (h ++ e1 ++ [.call .helmTest [tag]]) with
        | (.ok (some e), e3) => (.panic e, e1 ++ [.call .helmTest [tag]] ++ e3)
        | (.ok none, e3) => (.ok (), e1 ++ [.call .helmTest [tag]] ++ e3)
        | (.panic v, e3) => (.panic v, e1 ++ [.call .helmTest [tag]] ++ e3)
        | (.exited n, e3) => (.exited n, e1 ++ [.call .helmTest [tag]] ++ e3)
      | (.panic v, e1) => (.panic v, e1)
      | (.exited n, e1) => (.exited n, e1) := by
    unfold main
    rw [mainWith_all_run]
    simp only [stages, helmTest_run]
  refine ⟨hmain, ?_, fun s => mainWith_all_run s prog tag rest h⟩
  rw [hmain]
  have hpk := stageCalls_helmPackage w tag h
  rcases hp : helmPackage w tag h with ⟨r1, e1⟩
  rw [hp] at hpk
  rcases r1 with ⟨chart, _ | e⟩ | v | n
  · have hpb := stageCalls_helmPublish cfg w chart (h ++ e1 ++ [.call .helmTest [tag]])
    rcases hpub : helmPublish cfg w chart (h ++ e1 ++ [.call .helmTest [tag]]) with ⟨r3, e3⟩
    rw [hpub] at hpb
    simp only at hpk hpb
    simp only [List.append_assoc] at hpub
    rcases r3 with (_ | e) | v | n <;>
      simp [stageCalls_append, hpk, hpb, hpub, stageCalls]
  · simpa using hpk
  · simpa using hpk
  · simpa using hpk

/-- C5. For a chart reference `name:rest` with exactly one `:`, every path that
`helmPublish` gives to a push command is `strings.TrimSpace rest`, and once the backend
connection is made there is exactly one such push; this string is `rest` without a
leading and a trailing run of white space, and it neither starts nor ends with white
space. -/
theorem helmPublish_pushes_trimmed_suffix (cfg : Config) (w : World) (name rest : String)
    (h : List Event) (hname : ':' ∉ name.data) (hrest : ':' ∉ rest.data) :
    (∀ path ∈ pushedPaths (issuedCommands (helmPublish cfg w (name ++ ":" ++ rest) h).2),
      path = strings.TrimSpace rest) ∧
    (w.connect
        (h ++ [.call .helmPublish [name ++ ":" ++ rest], .call .getDaggerClient []]) = none →
      pushedPaths (issuedCommands (helmPublish cfg w (name ++ ":" ++ rest) h).2) =
        [strings.TrimSpace rest]) ∧
    ∃ l r : List Char, rest.data = l ++ (strings.TrimSpace rest).data ++ r ∧
      (∀ c ∈ l, unicode.IsSpace c = true) ∧ (∀ c ∈ r, unicode.IsSpace c = true) ∧
      (∀ c, (strings.TrimSpace rest).data.head? = some c → unicode.IsSpace c = false) ∧
      (∀ c, (strings.TrimSpace rest).data.getLast? = some c → unicode.IsSpace c = false) := by
  refine ⟨?_, ?_, strings.trimChars_spec rest.data⟩
  · rw [helmPublish_run, strings.Split_one_colon name rest hname hrest]
    cases hc : w.connect
        (h ++ [.call .helmPublish [name ++ ":" ++ rest], .call .getDaggerClient []]) <;>
      simp [issuedCommands, pushedPaths, helmPublish.helm, Container.WithExec, Container.From]
  · intro hconn
    rw [helmPublish_run, hconn, strings.Split_one_colon name rest hname hrest]
    simp [issuedCommands, pushedPaths, helmPublish.helm, Container.WithExec, Container.From]

/-- Witness for C5: the references `my-chart:1.2.3` and the same with a trailing newline
are pushed from the path `1.2.3`. -/
theorem helmPublish_pushes_trimmed_suffix_witness :
    pushedPaths (issuedCommands
        (helmPublish Config.default World.allSucceed ("my-chart" ++ ":" ++ "1.2.3") []).2) =
      ["1.2.3"] ∧
    pushedPaths (issuedCommands
        (helmPublish Config.default World.allSucceed ("my-chart" ++ ":" ++ "1.2.3\n") []).2) =
      ["1.2.3"] :=
  ⟨(helmPublish_pushes_trimmed_suffix Config.default World.allSucceed "my-chart" "1.2.3" []
      (by decide) (by decide)).2.1 rfl,
    (helmPublish_pushes_trimmed_suffix Config.default World.allSucceed "my-chart" "1.2.3\n" []
      (by decide) (by decide)).2.1 rfl⟩

/-- C8. Two calls of `helmPublish` that differ only in the password run commands with
the same argument lists, whatever the backend answers. The commands of a call are
either none or the login followed by the push, and the password is the standard input of
the login and nothing else. -/
theorem helmPublish_args_independent_of_password (w : World) (host user p1 p2 chart : String)
    (h : List Event) :
    (issuedCommands (helmPublish ⟨host, user, p1⟩ w chart h).2).map Exec.args =
      (issuedCommands (helmPublish ⟨host, user, p2⟩ w chart h).2).map Exec.args ∧
    (issuedCommands (helmPublish ⟨host, user, p1⟩ w chart h).2 = [] ∨
      ∃ path dest : String,
        issuedCommands (helmPublish ⟨host, user, p1⟩ w chart h).2 =
          [{ args := ["registry", "login", "-u", user, host, "--password-stdin"], stdin := p1 },
            { args := ["push", path, dest], stdin := "" }] ∧
        issuedCommands (helmPublish ⟨host, user, p2⟩ w chart h).2 =
          [{ args := ["registry", "login", "-u", user, host, "--password-stdin"], stdin := p2 },
            { args := ["push", path, dest], stdin := "" }]) := by
  simp only [helmPublish_run]
  cases hc : w.connect (h ++ [.call .helmPublish [chart], .call .getDaggerClient []]) with
  | some msg => simp [issuedCommands]
  | none =>
    cases hs : (strings.Split chart ':')[1]? <;>
      simp [issuedCommands, helmPublish.helm, Container.WithExec, Container.From]

/-- C9. For every registry host, user and password (the empty one included) and every
chart reference `name:rest` with exactly one `:`: the commands `helmPublish` runs are
never anything but the registry login of the user at the host followed by the push of the
extracted chart path to `oci://host/user`; once the backend connection is made these two
commands are run, in this order; and whenever `helmPublish` returns, what it returns is
the error of running this pipeline, unchanged. -/
theorem helmPublish_login_then_push (w : World) (host user password name rest : String)
    (h : List Event) (hname : ':' ∉ name.data) (hrest : ':' ∉ rest.data) :
    (issuedCommands (helmPublish ⟨host, user, password⟩ w (name ++ ":" ++ rest) h).2 = [] ∨
      issuedCommands (helmPublish ⟨host, user, password⟩ w (name ++ ":" ++ rest) h).2 =
        [{ args := ["registry", "login", "-u", user, host, "--password-stdin"],
           stdin := password },
          { args := ["push", strings.TrimSpace rest, "oci://" ++ host ++ "/" ++ user],
            stdin := "" }]) ∧
    (w.connect
        (h ++ [.call .helmPublish [name ++ ":" ++ rest], .call .getDaggerClient []]) = none →
      issuedCommands (helmPublish ⟨host, user, password⟩ w (name ++ ":" ++ rest) h).2 =
        [{ args := ["registry", "login", "-u", user, host, "--password-stdin"],
           stdin := password },
          { args := ["push", strings.TrimSpace rest, "oci://" ++ host ++ "/" ++ user],
            stdin := "" }] ∧
      (helmPublish ⟨host, user, password⟩ w (name ++ ":" ++ rest) h).1 =
        .ok ((w.stdout
            (h ++ [.call .helmPublish [name ++ ":" ++ rest], .call .getDaggerClient [],
              .acquire (h.length + 2)])
            (h.length + 2)
            (helmPublish.helm ⟨host, user, password⟩ (strings.TrimSpace rest))).2.map
          .backend)) ∧
    (∀ err, (helmPublish ⟨host, user, password⟩ w (name ++ ":" ++ rest) h).1 = .ok err →
      err = (w.stdout
          (h ++ [.call .helmPublish [name ++ ":" ++ rest], .call .getDaggerClient [],
            .acquire (h.length + 2)])
          (h.length + 2)
          (helmPublish.helm ⟨host, user, password⟩ (strings.TrimSpace rest))).2.map
        .backend) := by
  refine ⟨?_, ?_, ?_⟩
  · rw [helmPublish_run, strings.Split_one_colon name rest hname hrest]
    cases hc : w.connect
        (h ++ [.call .helmPublish [name ++ ":" ++ rest], .call .getDaggerClient []]) <;>
      simp [issuedCommands, helmPublish.helm, Container.WithExec, Container.From,
        fmt.Sprintf_destination]
  · intro hconn
    rw [helmPublish_run, hconn, strings.Split_one_colon name rest hname hrest]
    simp [issuedCommands, helmPublish.helm, Container.WithExec, Container.From,
      fmt.Sprintf_destination]
  · intro err
    rw [helmPublish_run, strings.Split_one_colon name rest hname hrest]
    cases hc : w.connect
        (h ++ [.call .helmPublish [name ++ ":" ++ rest], .call .getDaggerClient []])
    · simp only [List.getElem?_cons_succ, List.getElem?_cons_zero, Result.ok.injEq]
      exact fun hEq => hEq.symm
    · simp

/-- Witness for C9: the publication of `v1.0.0` with an empty password on a registry
that rejects the login. -/
theorem helmPublish_login_then_push_witness :
    issuedCommands (helmPublish ⟨"docker.io", "salaboy", ""⟩ World.registryRejects
        ("conference-app" ++ ":" ++ "v1.0.0") []).2 =
      [{ args := ["registry", "login", "-u", "salaboy", "docker.io", "--password-stdin"],
         stdin := "" },
        { args := ["push", strings.TrimSpace "v1.0.0", "oci://" ++ "docker.io" ++ "/" ++ "salaboy"],
          stdin := "" }] ∧
    (helmPublish ⟨"docker.io", "salaboy", ""⟩ World.registryRejects
        ("conference-app" ++ ":" ++ "v1.0.0") []).1 =
      .ok (some (.backend "unauthorized: incorrect username or password")) :=
  (helmPublish_login_then_push World.registryRejects "docker.io" "salaboy" "" "conference-app"
    "v1.0.0" [] (by decide) (by decide)).2.1 rfl

/-- C10. Whatever the backend answers and whatever the input, the events of a call of
`helmPackage`, of `updateYAML` and of `helmPublish` use clients in a scoped way: every
client the call acquired is released exactly once before the call is left (on return,
on every error return and on a panic such as the failing index in `helmPublish`), no
client is released twice and none stays held. The released clients are the acquired
ones, in reverse order, without repetition. -/
theorem stages_release_each_client_once (cfg : Config) (w : World)
    (tag expr file chart : String) (h : List Event) :
    (releaseDiscipline [] [] (helmPackage w tag h).2 = true ∧
      released (helmPackage w tag h).2 = (acquired (helmPackage w tag h).2).reverse ∧
      (acquired (helmPackage w tag h).2).Nodup) ∧
    (releaseDiscipline [] [] (updateYAML w expr file h).2 = true ∧
      released (updateYAML w expr file h).2 = (acquired (updateYAML w expr file h).2).reverse ∧
      (acquired (updateYAML w expr file h).2).Nodup) ∧
    (releaseDiscipline [] [] (helmPublish cfg w chart h).2 = true ∧
      released (helmPublish cfg w chart h).2 =
        (acquired (helmPublish cfg w chart h).2).reverse ∧
      (acquired (helmPublish cfg w chart h).2).Nodup) := by
  refine ⟨?_, ?_, ?_⟩
  · rw [helmPackage_run]
    cases hc : w.connect (h ++ [.call .helmPackage [tag], .call .getDaggerClient []]) with
    | some msg => simp [releaseDiscipline, released, acquired]
    | none =>
      simp only [updateYAML_run]
      by_cases he : isAnyEmpty [tag, "values.yaml"] = true
      · simp [he, releaseDiscipline, released, acquired]
      · simp only [he, if_false, Bool.false_eq_true]
        cases hc2 : w.connect
            (h ++ [.call .helmPackage [tag], .call .getDaggerClient [],
              .acquire (h.length + 2)] ++
              [.call .updateYAML [tag, "values.yaml"], .call .getDaggerClient []]) <;>
          simp [releaseDiscipline, released, acquired]
  · rw [updateYAML_run]
    by_cases he : isAnyEmpty [expr, file] = true
    · simp [he, releaseDiscipline, released, acquired]
    · simp only [he, if_false, Bool.false_eq_true]
      cases hc : w.connect (h ++ [.call .updateYAML [expr, file], .call .getDaggerClient []]) <;>
        simp [releaseDiscipline, released, acquired]
  · rw [helmPublish_run]
    cases hc : w.connect (h ++ [.call .helmPublish [chart], .call .getDaggerClient []]) with
    | some msg => simp [releaseDiscipline, released, acquired]
    | none =>
      cases hs : (strings.Split chart ':')[1]? <;>
        simp [releaseDiscipline, released, acquired]

/-- C1, failing inputs. With the verb `package`, when the packaging tool fails,
`helmPackage` returns the error, `main` prints it and returns normally: the exit status
is 0. With the verb `publish`, when the registry rejects the login, `helmPublish` returns
the error, `main` prints it and returns normally as well. -/
theorem main_prints_stage_error_and_returns :
    (helmPackage World.packagingFails "v1.0.0" []).1 =
        .ok ("", some (.backend "exit code: 1")) ∧
      main Config.default World.packagingFails ["helm-chart-pipeline", "package", "v1.0.0"] []
        = (.ok (),
          (helmPackage World.packagingFails "v1.0.0" []).2 ++
            [.println ["Packaging error: %v ", "exit code: 1"]]) ∧
      exitStatus
        (main Config.default World.packagingFails
          ["helm-chart-pipeline", "package", "v1.0.0"] []).1 = 0 ∧
    Event.println ["Publishing error: %v ", "unauthorized: incorrect username or password"] ∈
        (main Config.default World.registryRejects
          ["helm-chart-pipeline", "publish", "v1.0.0"] []).2 ∧
      (main Config.default World.registryRejects
        ["helm-chart-pipeline", "publish", "v1.0.0"] []).1 = .ok () ∧
      exitStatus
        (main Config.default World.registryRejects
          ["helm-chart-pipeline", "publish", "v1.0.0"] []).1 = 0 := by
  decide

/-- C4, failing inputs. On a chart reference without `:` (here the empty string, which
`main` passes on after a failed packaging, and `my-chart`) `helmPublish` does not return
an error: the index expression panics, after the client was acquired and before any
command. On a reference with two `:` it returns no error and pushes the segment between
the first and the second `:`. -/
theorem helmPublish_malformed_reference_not_rejected :
    helmPublish Config.default World.allSucceed "" [] =
        (.panic (.indexOutOfRange 1 1),
          [.call .helmPublish [""], .call .getDaggerClient [], .acquire 2, .release 2]) ∧
    (helmPublish Config.default World.allSucceed "my-chart" []).1 =
        .panic (.indexOutOfRange 1 1) ∧
    (helmPublish Config.default World.allSucceed "oci://charts/my-chart:1.2.3" []).1 =
        .ok none ∧
    pushedPaths (issuedCommands
        (helmPublish Config.default World.allSucceed "oci://charts/my-chart:1.2.3" []).2) =
      ["//charts/my-chart"] := by
  decide

/-- C6, failing input. With the empty tag `updateYAML` returns its validation error, and
`helmPackage` goes on: it runs the chart packaging command and returns the output of the
tool without error. -/
theorem helmPackage_ignores_patch_failure :
    updateYAML World.allSucceed "" "values.yaml"
        [.call .helmPackage [""], .call .getDaggerClient [], .acquire 2] =
      (.ok (false, some updateYAMLError), [.call .updateYAML ["", "values.yaml"]]) ∧
    helmPackage World.allSucceed "" [] =
      (.ok ("Successfully packaged chart and saved it to: /conference-app-v1.0.0.tgz\n", none),
        [.call .helmPackage [""], .call .getDaggerClient [], .acquire 2,
          .call .updateYAML ["", "values.yaml"], .stdout 2 helmPackage.helm, .release 2]) ∧
    issuedCommands (helmPackage World.allSucceed "" []).2 =
      [{ args := ["package", "-u", "."], stdin := "" }] := by
  decide

end HelmChartPipeline
